import Mathlib

/-!
Verification of the call-dispatch and depth-guard protocol of the fizzy
WebAssembly interpreter's execution engine.

The repository provides the public declaration of `execute`
(lib/fizzy/execute.hpp) and the depth-limit test suite
(test `execute_call_depth`, which fixes `DepthLimit = 2048` and
`static_assert(DepthLimit == CallStackLimit)`).  The body of `execute`
itself is not among the provided sources, so the dispatcher below is
modelled from the specification's algorithm (depth guard first, then
dispatch on the three callee kinds), with the concrete behaviours pinned
by the test suite.
-/

namespace Fizzy

/-- A WebAssembly value: one of the four numeric kinds.  Floating-point
values are carried as raw bit patterns; only `i32` values appear in the
depth-guard scenarios. -/
inductive Value where
  | i32 (v : Nat)
  | i64 (v : Nat)
  | f32 (bits : Nat)
  | f64 (bits : Nat)
  deriving DecidableEq, Repr

/-- The outcome of running a function: either a trap, or normal completion
with zero-or-one result value. -/
inductive ExecutionResult where
  | trapped
  | returned (v : Option Value)
  deriving DecidableEq, Repr

/-- The call-depth limit: `CallStackLimit = 2048`
(`limits.hpp`, pinned by `static_assert(DepthLimit == CallStackLimit)` in
the test suite).  The depth parameter of `execute` is a signed `int`,
modelled as `Int`. -/
def CallStackLimit : Int := 2048

/-- The test suite's local alias for the limit (`constexpr auto DepthLimit = 2048`). -/
def DepthLimit : Int := 2048

/-- The slice of the instruction set exercised by the call-depth protocol:
pushing an `i32` constant and calling a function by index.  Full opcode
semantics are out of scope of this spec slice. -/
inductive Instr where
  | i32_const (c : Nat)
  | call (k : Nat)
  deriving DecidableEq, Repr

/-- One slot of an instance's resolved function table: an internal function
body, a reference to a function of another (already existing) instance, or
a registered host callback.  The host callback receives the arguments and
the current depth and yields an `ExecutionResult` (the opaque host context
and calling instance of the C++ calling convention carry no information
used by the dispatcher itself). -/
inductive FuncSlot where
  | internal (body : List Instr)
  | importedWasm (targetInst : Nat) (targetFunc : Nat)
  | importedHost (f : List Value → Int → ExecutionResult)

/-- Runtime state of one instantiated module, restricted to what the call
dispatcher consults: the resolved function table. -/
structure Instance where
  funcs : List FuncSlot

/-- The collection of live instances, in instantiation order: an
imported-wasm slot refers to an instance that already existed when its
importer was instantiated, i.e. to a strictly smaller index. -/
def World := List Instance

/-- Look up a function slot by instance index and function index. -/
def slotOf (w : World) (inst : Nat) (fidx : Nat) : Option FuncSlot :=
  (List.get? w inst).bind fun i => List.get? i.funcs fidx

/-- Push a callee's zero-or-one result value onto the operand stack. -/
def pushResult (v : Option Value) (stack : List Value) : List Value :=
  match v with
  | none => stack
  | some x => x :: stack

mutual

/-- Modelled from the spec: the body of `fizzy::execute(instance, func_idx,
args, depth)` is not among the provided sources (only its declaration and
its test suite are).  Algorithm per the spec, pinned by the tests:
depth guard first (`depth >= CallStackLimit` traps immediately, before any
dispatch); then dispatch on the callee kind: an internal body is
interpreted on a fresh operand stack; an imported-wasm slot delegates to
the target instance's function at the unchanged depth (the guard for this
logical call already ran at entry; the test `execute_imported_wasm_function`
expects success at `DepthLimit - 1`, which rules out re-guarding at
`depth + 1`); an imported-host slot invokes the registered callback with
the current depth.  The second component of the result is the observable
trace of host-callback invocations (the depth each callback was passed);
an empty trace means no host callback ran.  A `func_idx` with no slot is
undefined behaviour in the source and is modelled as a trap. -/
def execute (w : World) (inst : Nat) (fidx : Nat) (args : List Value) (depth : Int) :
    ExecutionResult × List Int :=
  if h : CallStackLimit ≤ depth then (.trapped, [])
  else
    match slotOf w inst fidx with
    | none => (.trapped, [])
    | some (.internal body) => execBody w inst body [] depth (by omega)
    | some (.importedWasm ti tf) =>
        if hti : ti < inst then execute w ti tf args depth else (.trapped, [])
    | some (.importedHost f) => (f args depth, [depth])
termination_by ((CallStackLimit - depth).toNat, inst, 1, 0)

/-- Modelled from the spec: interpretation of an internal function body
(the instruction loop of `execute`, not among the provided sources).  A
call instruction invokes `execute` on the callee with `depth + 1`; a trap
propagating from the callee immediately aborts interpretation of the
current body and becomes its result.  At the end of the body the
zero-or-one result value is the top of the operand stack. -/
def execBody (w : World) (inst : Nat) (body : List Instr) (stack : List Value)
    (depth : Int) (h : depth < CallStackLimit) : ExecutionResult × List Int :=
  match body with
  | [] => (.returned stack.head?, [])
  | .i32_const c :: rest => execBody w inst rest (Value.i32 c :: stack) depth h
  | .call k :: rest =>
      match execute w inst k stack (depth + 1) with
      | (.trapped, tr) => (.trapped, tr)
      | (.returned v, tr) =>
          let r := execBody w inst rest (pushResult v stack) depth h
          (r.1, tr ++ r.2)
termination_by ((CallStackLimit - depth).toNat, inst, 0, body.length)

end

/-! ### The concrete modules of the `execute_call_depth` test suite -/

/-- Test `execute_internal_function`: a single internal function
`(func (result i32) (i32.const 1))`. -/
def internalWorld : World := [⟨[.internal [.i32_const 1]]⟩]

/-- The exporter module of the imported-wasm tests: instance 0, exporting
`f = (func (result i32) (i32.const 1))`. -/
def exporterInstance : Instance := ⟨[.internal [.i32_const 1]]⟩

/-- Test `execute_imported_wasm_function`: instance 1 imports the
exporter's `f` as its function 0. -/
def importedWasmWorld : World := [exporterInstance, ⟨[.importedWasm 0 0]⟩]

/-- The host callback of the host-function tests: returns `i32 1`.  The
depth it observes (`recorded_depth` in the tests) is the entry the
dispatcher appends to the execution trace. -/
def host_f : List Value → Int → ExecutionResult := fun _ _ => .returned (some (.i32 1))

/-- Test `execute_imported_host_function`: a single imported host function. -/
def hostWorld : World := [⟨[.importedHost host_f]⟩]

/-- Test `call_internal_function`: function 0 = `i32.const 1`,
function 1 = `call 0`. -/
def callInternalWorld : World := [⟨[.internal [.i32_const 1], .internal [.call 0]]⟩]

/-- Test `call_imported_wasm_function`: instance 1's function 0 imports the
exporter's `f`; its function 1 = `call 0`. -/
def callImportedWasmWorld : World :=
  [exporterInstance, ⟨[.importedWasm 0 0, .internal [.call 0]]⟩]

/-- Test `call_imported_host_function`: function 0 = host callback,
function 1 = `call 0`. -/
def callHostWorld : World := [⟨[.importedHost host_f, .internal [.call 0]]⟩]

/-- Test `execute_internal_infinite_recursion_function`:
function 0 = `(func $f (call $f))`. -/
def selfRecWorld : World := [⟨[.internal [.call 0]]⟩]

/-- A linked pair used to observe trap propagation across an instance
boundary: instance 0 is the self-recursive function, instance 1 imports it. -/
def wasmImportsSelfRecWorld : World := [⟨[.internal [.call 0]]⟩, ⟨[.importedWasm 0 0]⟩]

/-- A body makes no nested calls: it consists of constant pushes only. -/
def callFree : List Instr → Bool
  | [] => true
  | .i32_const _ :: rest => callFree rest
  | .call _ :: _ => false

/-! ### Unfolding lemmas for the dispatcher -/

/-- The depth guard: at `depth >= CallStackLimit` the dispatcher traps at
once, with an empty host-invocation trace. -/
theorem execute_guard (w : World) (inst fidx : Nat) (args : List Value) (depth : Int)
    (h : CallStackLimit ≤ depth) : execute w inst fidx args depth = (.trapped, []) := by
  rw [execute]
  simp [h]

/-- Below the limit, an internal slot is interpreted on a fresh operand stack. -/
theorem execute_internal (w : World) (inst fidx : Nat) (body : List Instr) (args : List Value)
    (depth : Int) (hd : depth < CallStackLimit)
    (hs : slotOf w inst fidx = some (.internal body)) :
    execute w inst fidx args depth = execBody w inst body [] depth hd := by
  rw [execute]
  rw [dif_neg (by omega)]
  rw [hs]

/-- Below the limit, an imported-wasm slot delegates to the target
instance's function at the unchanged depth. -/
theorem execute_wasm (w : World) (inst fidx ti tf : Nat) (args : List Value)
    (depth : Int) (hd : depth < CallStackLimit)
    (hs : slotOf w inst fidx = some (.importedWasm ti tf)) (hti : ti < inst) :
    execute w inst fidx args depth = execute w ti tf args depth := by
  rw [execute]
  rw [dif_neg (by omega)]
  rw [hs]
  simp [hti]

/-- Below the limit, an imported-host slot invokes the callback with the
current depth, recording the invocation in the trace. -/
theorem execute_host (w : World) (inst fidx : Nat) (f : List Value → Int → ExecutionResult)
    (args : List Value) (depth : Int) (hd : depth < CallStackLimit)
    (hs : slotOf w inst fidx = some (.importedHost f)) :
    execute w inst fidx args depth = (f args depth, [depth]) := by
  rw [execute]
  rw [dif_neg (by omega)]
  rw [hs]

/-- An exhausted body returns the top of the operand stack (zero-or-one value). -/
theorem execBody_nil (w : World) (inst : Nat) (stack : List Value) (depth : Int)
    (h : depth < CallStackLimit) :
    execBody w inst [] stack depth h = (.returned stack.head?, []) := by
  rw [execBody]

/-- A constant push. -/
theorem execBody_const (w : World) (inst : Nat) (c : Nat) (rest : List Instr)
    (stack : List Value) (depth : Int) (h : depth < CallStackLimit) :
    execBody w inst (.i32_const c :: rest) stack depth h =
      execBody w inst rest (Value.i32 c :: stack) depth h := by
  rw [execBody]

/-- A call instruction whose callee (invoked at `depth + 1`) traps aborts
the current body: the result is the trap and the trace is exactly the
callee's trace. -/
theorem execBody_call_trap (w : World) (inst k : Nat) (rest : List Instr)
    (stack : List Value) (depth : Int) (h : depth < CallStackLimit) (tr : List Int)
    (hnest : execute w inst k stack (depth + 1) = (.trapped, tr)) :
    execBody w inst (.call k :: rest) stack depth h = (.trapped, tr) := by
  rw [execBody]
  rw [hnest]

/-- A call instruction whose callee returns pushes the returned value and
continues with the rest of the body. -/
theorem execBody_call_ret (w : World) (inst k : Nat) (rest : List Instr)
    (stack : List Value) (depth : Int) (h : depth < CallStackLimit)
    (v : Option Value) (tr : List Int)
    (hnest : execute w inst k stack (depth + 1) = (.returned v, tr)) :
    execBody w inst (.call k :: rest) stack depth h =
      ((execBody w inst rest (pushResult v stack) depth h).1,
        tr ++ (execBody w inst rest (pushResult v stack) depth h).2) := by
  rw [execBody]
  rw [hnest]

/-- A call-free body is interpreted identically in every world, every
instance, and at every depth below the limit: it never traps, never calls
anything, and produces an empty host trace. -/
theorem execBody_callFree_eq (body : List Instr) (hcf : callFree body = true)
    (w w' : World) (inst inst' : Nat) (stack : List Value) (d d' : Int)
    (h : d < CallStackLimit) (h' : d' < CallStackLimit) :
    execBody w inst body stack d h = execBody w' inst' body stack d' h' := by
  induction body generalizing stack with
  | nil => rw [execBody_nil, execBody_nil]
  | cons i rest ih =>
      cases i with
      | i32_const c =>
          rw [execBody_const, execBody_const]
          exact ih (by simpa [callFree] using hcf) _
      | call k => simp [callFree] at hcf

/-- A call-free body always completes normally, with an empty host trace. -/
theorem execBody_callFree_returns (body : List Instr) (hcf : callFree body = true)
    (w : World) (inst : Nat) (stack : List Value) (d : Int) (h : d < CallStackLimit) :
    ∃ v, execBody w inst body stack d h = (.returned v, []) := by
  induction body generalizing stack with
  | nil => exact ⟨stack.head?, by rw [execBody_nil]⟩
  | cons i rest ih =>
      cases i with
      | i32_const c =>
          rw [execBody_const]
          exact ih (by simpa [callFree] using hcf) _
      | call k => simp [callFree] at hcf

/-! ### The claims -/

/-- Claim C1: for every world, instance, function index, arguments and every
depth at or above `CallStackLimit` (2048), `execute` returns `Trapped`
immediately, identically for all three callee kinds, with an empty
host-invocation trace: no function body is entered and no host callback runs. -/
theorem depth_guard_traps_uniformly (w : World) (inst fidx : Nat) (args : List Value)
    (depth : Int) (hd : CallStackLimit ≤ depth) :
    execute w inst fidx args depth = (.trapped, []) :=
  execute_guard w inst fidx args depth hd

/-- Witness for C1: at depth 3000 the dispatcher traps with no host invocation. -/
theorem depth_guard_traps_uniformly_witness :
    execute internalWorld 0 0 [] 3000 = (.trapped, []) :=
  depth_guard_traps_uniformly internalWorld 0 0 [] 3000 (by decide)

/-- Claim C2: a `Trapped` result propagates unchanged through every enclosing
frame.  (i) A call instruction whose callee traps makes the enclosing body
yield exactly that trap, with no further instruction of the body executed
(the trace is exactly the callee's trace); (ii) an internal function whose
body traps yields that trap as its own result; (iii) an imported-wasm frame
yields the target's trap unchanged.  Together these cover every enclosing
frame kind up to the original external caller. -/
theorem trap_propagates_unchanged :
    (∀ (w : World) (inst k : Nat) (rest : List Instr) (stack : List Value) (depth : Int)
        (tr : List Int) (h : depth < CallStackLimit),
        execute w inst k stack (depth + 1) = (.trapped, tr) →
        execBody w inst (.call k :: rest) stack depth h = (.trapped, tr)) ∧
    (∀ (w : World) (inst fidx : Nat) (body : List Instr) (args : List Value) (depth : Int)
        (tr : List Int) (h : depth < CallStackLimit),
        slotOf w inst fidx = some (.internal body) →
        execBody w inst body [] depth h = (.trapped, tr) →
        execute w inst fidx args depth = (.trapped, tr)) ∧
    (∀ (w : World) (inst fidx ti tf : Nat) (args : List Value) (depth : Int)
        (tr : List Int) (h : depth < CallStackLimit),
        slotOf w inst fidx = some (.importedWasm ti tf) → ti < inst →
        execute w ti tf args depth = (.trapped, tr) →
        execute w inst fidx args depth = (.trapped, tr)) := by
  refine ⟨?_, ?_, ?_⟩
  · intro w inst k rest stack depth tr h hnest
    exact execBody_call_trap w inst k rest stack depth h tr hnest
  · intro w inst fidx body args depth tr h hs hb
    rw [execute_internal w inst fidx body args depth h hs]
    exact hb
  · intro w inst fidx ti tf args depth tr h hs hti ht
    rw [execute_wasm w inst fidx ti tf args depth h hs hti]
    exact ht

/-- Witness for C2: a nested call trapping at the limit aborts the remaining
body, propagates through the internal frame of the self-recursive function,
and propagates unchanged across the imported-wasm boundary. -/
theorem trap_propagates_unchanged_witness :
    execBody internalWorld 0 [Instr.call 0] [] 2047 (by decide) = (.trapped, []) ∧
      execute selfRecWorld 0 0 [] 2047 = (.trapped, []) ∧
      execute wasmImportsSelfRecWorld 1 0 [] 2047 = (.trapped, []) :=
  ⟨trap_propagates_unchanged.1 internalWorld 0 0 [] [] 2047 [] (by decide)
      (execute_guard internalWorld 0 0 [] 2048 (by decide)),
    trap_propagates_unchanged.2.1 selfRecWorld 0 0 [.call 0] [] 2047 [] (by decide) rfl
      (execBody_call_trap selfRecWorld 0 0 [] [] 2047 (by decide) []
        (execute_guard selfRecWorld 0 0 [] 2048 (by decide))),
    trap_propagates_unchanged.2.2 wasmImportsSelfRecWorld 1 0 0 0 [] 2047 [] (by decide) rfl
      (by decide)
      (by simp [execute, execBody, slotOf, CallStackLimit, wasmImportsSelfRecWorld])⟩

/-- Claim C3: when the depth guard trips for a host-backed function's own
invocation, the registered callback is not invoked: the result is an
immediate trap with an empty host-invocation trace, so no callback side
effect occurs. -/
theorem host_callback_not_invoked_at_limit (w : World) (inst fidx : Nat)
    (f : List Value → Int → ExecutionResult) (args : List Value) (depth : Int)
    (hs : slotOf w inst fidx = some (.importedHost f)) (hd : CallStackLimit ≤ depth) :
    execute w inst fidx args depth = (.trapped, []) :=
  execute_guard w inst fidx args depth hd

/-- Witness for C3: the host function of `execute_imported_host_function`,
executed at `DepthLimit`, traps without the callback running
(`recorded_depth` stays untouched in the test). -/
theorem host_callback_not_invoked_at_limit_witness :
    execute hostWorld 0 0 [] 2048 = (.trapped, []) :=
  host_callback_not_invoked_at_limit hostWorld 0 0 host_f [] 2048 rfl (by decide)

/-- Claim C4: an internal function whose body makes no nested calls succeeds
at `depth = CallStackLimit - 1` (returning its value) and traps at
`depth = CallStackLimit`. -/
theorem leaf_function_boundary (w : World) (inst fidx : Nat) (body : List Instr)
    (args : List Value) (hs : slotOf w inst fidx = some (.internal body))
    (hcf : callFree body = true) :
    (∃ v, execute w inst fidx args (CallStackLimit - 1) = (.returned v, [])) ∧
      execute w inst fidx args CallStackLimit = (.trapped, []) := by
  constructor
  · rw [execute_internal w inst fidx body args _ (by omega) hs]
    exact execBody_callFree_returns body hcf w inst [] _ (by omega)
  · exact execute_guard w inst fidx args _ (by omega)

/-- Witness for C4: the `(i32.const 1)` function of `execute_internal_function`. -/
theorem leaf_function_boundary_witness :
    (∃ v, execute internalWorld 0 0 [] (CallStackLimit - 1) = (.returned v, [])) ∧
      execute internalWorld 0 0 [] CallStackLimit = (.trapped, []) :=
  leaf_function_boundary internalWorld 0 0 [.i32_const 1] [] rfl rfl

/-- Claim C5: in the concrete module of `call_internal_function`
(function 0 = `i32.const 1`, function 1 = `call 0`), executing function 1 at
`DepthLimit - 2` returns `1`; at `DepthLimit - 1` the nested call arrives at
the limit and the chain traps; at `DepthLimit` the outer guard alone traps. -/
theorem concrete_one_call_scenario :
    execute callInternalWorld 0 1 [] (DepthLimit - 2) = (.returned (some (.i32 1)), []) ∧
      execute callInternalWorld 0 1 [] (DepthLimit - 1) = (.trapped, []) ∧
      execute callInternalWorld 0 1 [] DepthLimit = (.trapped, []) := by
  refine ⟨?_, ?_, ?_⟩ <;>
    simp [DepthLimit, execute, execBody, slotOf, CallStackLimit, callInternalWorld, pushResult]

/-- Counterexample for C6: the claim that an imported-wasm slot delegates to
the target at `depth + 1` fails.  In `execute_imported_wasm_function`'s
module pair, executing the importer at `DepthLimit - 1` succeeds (as the
test demands), while the target at `DepthLimit` traps — so the delegated
call cannot have been made at `depth + 1`. -/
theorem imported_wasm_depth_plus_one_counterexample :
    execute importedWasmWorld 1 0 [] (DepthLimit - 1) = (.returned (some (.i32 1)), []) ∧
      execute importedWasmWorld 0 0 [] DepthLimit = (.trapped, []) ∧
      execute importedWasmWorld 1 0 [] (DepthLimit - 1) ≠
        execute importedWasmWorld 0 0 [] DepthLimit := by
  refine ⟨?_, ?_, ?_⟩
  · simp [DepthLimit, execute, execBody, slotOf, CallStackLimit, importedWasmWorld,
      exporterInstance]
  · simp [DepthLimit, execute, CallStackLimit]
  · simp [DepthLimit, execute, execBody, slotOf, CallStackLimit, importedWasmWorld,
      exporterInstance]

/-- Claim C6 (amended): an imported-wasm slot delegates to the target
instance's function at the unchanged depth (the guard for this logical call
already ran at entry), sharing the same depth counter and guard discipline;
consequently a cross-instance call chain traps or succeeds exactly as the
identical single-instance internal chain at every starting depth, both for
a direct call of the imported function and for a one-call chain through it. -/
theorem imported_wasm_same_depth_equivalence :
    (∀ (w : World) (inst fidx ti tf : Nat) (args : List Value) (depth : Int),
        depth < CallStackLimit →
        slotOf w inst fidx = some (.importedWasm ti tf) → ti < inst →
        execute w inst fidx args depth = execute w ti tf args depth) ∧
    (∀ (depth : Int) (args : List Value),
        execute importedWasmWorld 1 0 args depth = execute internalWorld 0 0 args depth) ∧
    (∀ (depth : Int) (args : List Value),
        execute callImportedWasmWorld 1 1 args depth =
          execute callInternalWorld 0 1 args depth) := by
  refine ⟨?_, ?_, ?_⟩
  · intro w inst fidx ti tf args depth hd hs hti
    exact execute_wasm w inst fidx ti tf args depth hd hs hti
  · intro depth args
    by_cases hd : CallStackLimit ≤ depth
    · rw [execute_guard _ _ _ _ _ hd, execute_guard _ _ _ _ _ hd]
    · push_neg at hd
      rw [execute_wasm importedWasmWorld 1 0 0 0 args depth hd rfl (by decide)]
      rw [execute_internal importedWasmWorld 0 0 [.i32_const 1] args depth hd rfl]
      rw [execute_internal internalWorld 0 0 [.i32_const 1] args depth hd rfl]
      exact execBody_callFree_eq [.i32_const 1] rfl importedWasmWorld internalWorld 0 0 []
        depth depth hd hd
  · intro depth args
    by_cases hd : CallStackLimit ≤ depth
    · rw [execute_guard _ _ _ _ _ hd, execute_guard _ _ _ _ _ hd]
    · push_neg at hd
      rw [execute_internal callImportedWasmWorld 1 1 [.call 0] args depth hd rfl]
      rw [execute_internal callInternalWorld 0 1 [.call 0] args depth hd rfl]
      by_cases hd2 : CallStackLimit ≤ depth + 1
      · rw [execBody_call_trap callImportedWasmWorld 1 0 [] [] depth hd []
          (execute_guard _ _ _ _ _ hd2)]
        rw [execBody_call_trap callInternalWorld 0 0 [] [] depth hd []
          (execute_guard _ _ _ _ _ hd2)]
      · push_neg at hd2
        have t1 : execute callImportedWasmWorld 1 0 [] (depth + 1) =
            (.returned (some (.i32 1)), []) := by
          rw [execute_wasm callImportedWasmWorld 1 0 0 0 [] (depth + 1) hd2 rfl (by decide)]
          rw [execute_internal callImportedWasmWorld 0 0 [.i32_const 1] [] (depth + 1) hd2 rfl]
          rw [execBody_const, execBody_nil]
          rfl
        have t2 : execute callInternalWorld 0 0 [] (depth + 1) =
            (.returned (some (.i32 1)), []) := by
          rw [execute_internal callInternalWorld 0 0 [.i32_const 1] [] (depth + 1) hd2 rfl]
          rw [execBody_const, execBody_nil]
          rfl
        rw [execBody_call_ret callImportedWasmWorld 1 0 [] [] depth hd (some (.i32 1)) [] t1]
        rw [execBody_call_ret callInternalWorld 0 0 [] [] depth hd (some (.i32 1)) [] t2]
        rw [execBody_nil, execBody_nil]

/-- Witness for C6 (amended): a direct cross-instance call at depth 100
equals the delegated call at the same depth, and the one-call chain at
`DepthLimit - 2` matches the single-instance chain. -/
theorem imported_wasm_same_depth_equivalence_witness :
    execute importedWasmWorld 1 0 [] 100 = execute importedWasmWorld 0 0 [] 100 ∧
      execute callImportedWasmWorld 1 1 [] 2046 = execute callInternalWorld 0 1 [] 2046 :=
  ⟨imported_wasm_same_depth_equivalence.1 importedWasmWorld 1 0 0 0 [] 100 (by decide) rfl
      (by decide),
    imported_wasm_same_depth_equivalence.2.2 2046 []⟩

/-- Claim C7: a host callback reached directly by `execute` below the limit
is invoked with the caller-supplied depth, unincremented (the trace records
exactly that depth); a host callback reached through one interpreted call
from a function executed at depth `d` is invoked with `d + 1`. -/
theorem host_depth_observation :
    (∀ (w : World) (inst fidx : Nat) (f : List Value → Int → ExecutionResult)
        (args : List Value) (depth : Int), depth < CallStackLimit →
        slotOf w inst fidx = some (.importedHost f) →
        execute w inst fidx args depth = (f args depth, [depth])) ∧
    (∀ (depth : Int) (args : List Value), depth < CallStackLimit - 1 →
        execute callHostWorld 0 1 args depth = (.returned (some (.i32 1)), [depth + 1])) := by
  constructor
  · intro w inst fidx f args depth hd hs
    exact execute_host w inst fidx f args depth hd hs
  · intro depth args hd1
    have hd : depth < CallStackLimit := by omega
    have hd2 : depth + 1 < CallStackLimit := by omega
    rw [execute_internal callHostWorld 0 1 [.call 0] args depth hd rfl]
    have t1 : execute callHostWorld 0 0 [] (depth + 1) =
        (.returned (some (.i32 1)), [depth + 1]) := by
      rw [execute_host callHostWorld 0 0 host_f [] (depth + 1) hd2 rfl]
      rfl
    rw [execBody_call_ret callHostWorld 0 0 [] [] depth hd (some (.i32 1)) [depth + 1] t1]
    rw [execBody_nil]
    rfl

/-- Witness for C7: a direct host call at depth 5 observes 5
(`recorded_depth == DepthLimit - 1` style check of the test at a small
depth), and the one-call chain from depth 0 observes 1, matching
`call_imported_host_function`. -/
theorem host_depth_observation_witness :
    execute hostWorld 0 0 [] 5 = (host_f [] 5, [5]) ∧
      execute callHostWorld 0 1 [] 0 = (.returned (some (.i32 1)), [0 + 1]) :=
  ⟨host_depth_observation.1 hostWorld 0 0 host_f [] 5 (by decide) rfl,
    host_depth_observation.2 0 [] (by decide)⟩

/-- Claim C8: the unconditionally self-calling function of
`execute_internal_infinite_recursion_function` traps for every starting
depth: every recursive path reaches the limit, so runaway recursion always
terminates via the depth guard, and no host callback ever runs. -/
theorem runaway_recursion_always_traps (depth : Int) (args : List Value) :
    execute selfRecWorld 0 0 args depth = (.trapped, []) := by
  by_cases hd : CallStackLimit ≤ depth
  · exact execute_guard _ _ _ _ _ hd
  · push_neg at hd
    have ih : execute selfRecWorld 0 0 [] (depth + 1) = (.trapped, []) :=
      runaway_recursion_always_traps (depth + 1) []
    rw [execute_internal selfRecWorld 0 0 [.call 0] args depth hd rfl]
    exact execBody_call_trap selfRecWorld 0 0 [] [] depth hd [] ih
termination_by (CallStackLimit - depth).toNat
decreasing_by simp_wf; omega

/-- Claim C9: `execute` is total — defined for every depth, including
out-of-range ones — and every outcome is communicated solely through the
returned `ExecutionResult`, which is always exactly one of the two
constructors `trapped` or `returned`. -/
theorem execute_total_two_outcomes (w : World) (inst fidx : Nat) (args : List Value)
    (depth : Int) :
    (execute w inst fidx args depth).1 = .trapped ∨
      ∃ v, (execute w inst fidx args depth).1 = .returned v := by
  cases hr : (execute w inst fidx args depth).1 with
  | trapped => exact Or.inl rfl
  | returned v => exact Or.inr ⟨v, rfl⟩

/-- Claim C10: the depth parameter (a signed integer, modelled as `Int`) is
checked only against the upper bound: for every depth strictly below
`CallStackLimit`, including negative values, the guard passes and a
call-free internal function executes identically to any other below-limit
depth; concretely the `i32.const 1` function succeeds at any such depth. -/
theorem no_lower_depth_bound :
    (∀ (w : World) (inst fidx : Nat) (body : List Instr) (args : List Value) (d d' : Int),
        slotOf w inst fidx = some (.internal body) → callFree body = true →
        d < CallStackLimit → d' < CallStackLimit →
        execute w inst fidx args d = execute w inst fidx args d') ∧
    (∀ d : Int, d < CallStackLimit →
        execute internalWorld 0 0 [] d = (.returned (some (.i32 1)), [])) := by
  constructor
  · intro w inst fidx body args d d' hs hcf hd hd'
    rw [execute_internal w inst fidx body args d hd hs]
    rw [execute_internal w inst fidx body args d' hd' hs]
    exact execBody_callFree_eq body hcf w w inst inst [] d d' hd hd'
  · intro d hd
    rw [execute_internal internalWorld 0 0 [.i32_const 1] [] d hd rfl]
    rw [execBody_const, execBody_nil]
    rfl

/-- Witness for C10: depth -1000000 passes the guard and behaves exactly as
depth 0. -/
theorem no_lower_depth_bound_witness :
    execute internalWorld 0 0 [] (-1000000) = execute internalWorld 0 0 [] 0 ∧
      execute internalWorld 0 0 [] (-1000000) = (.returned (some (.i32 1)), []) :=
  ⟨no_lower_depth_bound.1 internalWorld 0 0 [.i32_const 1] [] (-1000000) 0 rfl rfl (by decide)
      (by decide),
    no_lower_depth_bound.2 (-1000000) (by decide)⟩

end Fizzy
